import Mathlib

set_option maxRecDepth 100000

/-!
Shallow embedding of the MCPolice violation-reporting worker
(`src/statutes.ts`, `src/types.ts` and the Hono worker `src/index.tsx`).

Conventions of the embedding:
* A JavaScript string value that may be absent is an `Option String`; JS
  truthiness of such a value is `jsTruthy` (absent and `""` are falsy).
* ISO-8601 timestamps are modelled by their epoch-millisecond value (`Int`);
  `new Date(a) > new Date(b)` on such strings is `b < a` on those values.
* The Cloudflare KV namespace holds two disjoint key families:
  `violation:<id>` record entries (modelled as an association list keyed by
  `<id>`; the constant prefix is injective, so keying by the id is faithful)
  and the `violation_list` index (the `index` field of `Store`).
  `put` prepends a binding and `get` returns the newest binding, which is
  `put`-overwrite semantics as far as `get` can observe.
* A JavaScript `TypeError` thrown inside a handler (reading `.includes` or
  `.forEach` of `undefined`) is modelled by an `Option`-valued handler
  returning `none`.
* The property access `INTERNATIONAL_STATUTES[statute]` follows the JS
  prototype chain: a key that is not an own key of the object literal but is
  a member name of `Object.prototype` yields that inherited (truthy)
  function value, not `undefined`.  `getStatuteInfo` therefore distinguishes
  three outcomes: an own registry entry, an inherited truthy non-statute
  value, and `null`.
-/

/-- `StatuteInfo` from `src/statutes.ts` (severity is the literal string of
the TS union type). -/
structure StatuteInfo where
  organization : String
  article : String
  description : String
  severity : String
  jurisdiction : List String
deriving DecidableEq

/-- The `INTERNATIONAL_STATUTES` object literal of `src/statutes.ts`:
the 15 own (key, value) entries in definition order. -/
def INTERNATIONAL_STATUTES : List (String × StatuteInfo) := [
  ("Rome Statute Article 6",
   { organization := "ICC", article := "Rome Statute Article 6",
     description := "Genocide: Acts committed with intent to destroy, in whole or in part, a national, ethnical, racial or religious group, such as killing, causing serious bodily or mental harm, inflicting conditions of life calculated to destroy, imposing measures to prevent births, or forcibly transferring children.",
     severity := "CRITICAL", jurisdiction := ["INTERNATIONAL", "ICC"] }),
  ("Rome Statute Article 7",
   { organization := "ICC", article := "Rome Statute Article 7",
     description := "Crimes against humanity: Widespread or systematic attacks against civilians, including murder, extermination, enslavement, deportation, imprisonment, torture, rape, persecution, enforced disappearance, apartheid, and other inhumane acts.",
     severity := "CRITICAL", jurisdiction := ["INTERNATIONAL", "ICC"] }),
  ("Rome Statute Article 8",
   { organization := "ICC", article := "Rome Statute Article 8",
     description := "War crimes: Grave breaches of the Geneva Conventions, including willful killing, torture, inhuman treatment, unlawful deportation, taking hostages, attacking civilians, using prohibited weapons, starvation of civilians, and conscripting children under 15 into armed forces.",
     severity := "CRITICAL", jurisdiction := ["INTERNATIONAL", "ICC"] }),
  ("Rome Statute Article 8 bis",
   { organization := "ICC", article := "Rome Statute Article 8 bis",
     description := "Crime of aggression: Planning, preparation, initiation or execution of an act of aggression by a state leader that constitutes a manifest violation of the UN Charter.",
     severity := "CRITICAL", jurisdiction := ["INTERNATIONAL", "ICC"] }),
  ("IAEA Statute Article XII.C",
   { organization := "IAEA", article := "IAEA Statute Article XII.C",
     description := "Non-compliance with nuclear safeguards: Failure to declare nuclear material, diversion of nuclear material for non-peaceful purposes, or refusal to allow inspections.",
     severity := "CRITICAL", jurisdiction := ["INTERNATIONAL", "IAEA"] }),
  ("INFCIRC/153",
   { organization := "IAEA", article := "INFCIRC/153",
     description := "Breach of comprehensive safeguards agreements: Failure to provide information, denial of access to facilities, or concealment of nuclear activities.",
     severity := "CRITICAL", jurisdiction := ["INTERNATIONAL", "IAEA"] }),
  ("INFCIRC/540",
   { organization := "IAEA", article := "INFCIRC/540",
     description := "Breach of Additional Protocol: Failure to provide expanded information or access as required for verification of peaceful use of nuclear material.",
     severity := "HIGH", jurisdiction := ["INTERNATIONAL", "IAEA"] }),
  ("NPT Article III",
   { organization := "IAEA", article := "NPT Article III",
     description := "Violation of the Treaty on the Non-Proliferation of Nuclear Weapons: Non-compliance with obligations to prevent the spread of nuclear weapons and technology.",
     severity := "CRITICAL", jurisdiction := ["INTERNATIONAL", "IAEA"] }),
  ("International Humanitarian Law (Geneva Conventions, Protocols)",
   { organization := "WFO", article := "International Humanitarian Law (Geneva Conventions, Protocols)",
     description := "Starvation of civilians as a method of warfare: Prohibited to attack, destroy, remove, or render useless objects indispensable to the survival of the civilian population, such as foodstuffs, crops, livestock, and water supplies.",
     severity := "CRITICAL", jurisdiction := ["INTERNATIONAL", "WFO"] }),
  ("Universal Declaration of Human Rights Article 25",
   { organization := "WFO", article := "Universal Declaration of Human Rights Article 25",
     description := "Denial of the right to adequate food: Failure to ensure access to sufficient, safe, and nutritious food for all people.",
     severity := "HIGH", jurisdiction := ["INTERNATIONAL", "UN"] }),
  ("Fourth Geneva Convention Article 33",
   { organization := "WFO", article := "Fourth Geneva Convention Article 33",
     description := "Collective punishment: Prohibition of punishing protected persons for offenses they have not personally committed, including through denial of food or humanitarian aid.",
     severity := "HIGH", jurisdiction := ["INTERNATIONAL", "WFO"] }),
  ("1954 Hague Convention Article 4",
   { organization := "UNESCO", article := "1954 Hague Convention Article 4",
     description := "Protection of cultural property in armed conflict: Prohibition of use, theft, pillage, or destruction of cultural property during armed conflict.",
     severity := "HIGH", jurisdiction := ["INTERNATIONAL", "UNESCO"] }),
  ("1999 Second Protocol Article 15",
   { organization := "UNESCO", article := "1999 Second Protocol Article 15",
     description := "Serious violations against cultural property: Attacking, using for military purposes, extensive destruction, theft, pillage, or vandalism of protected cultural property.",
     severity := "HIGH", jurisdiction := ["INTERNATIONAL", "UNESCO"] }),
  ("1970 Convention Article 3",
   { organization := "UNESCO", article := "1970 Convention Article 3",
     description := "Illicit trafficking of cultural property: Prohibition of the import, export, or transfer of ownership of cultural property contrary to the provisions of the Convention.",
     severity := "MEDIUM", jurisdiction := ["INTERNATIONAL", "UNESCO"] }),
  ("World Heritage Convention Article 11(4)",
   { organization := "UNESCO", article := "World Heritage Convention Article 11(4)",
     description := "Failure to protect World Heritage sites: Allowing serious and specific dangers to threaten the conservation of cultural and natural heritage of outstanding universal value.",
     severity := "MEDIUM", jurisdiction := ["INTERNATIONAL", "UNESCO"] })
]

/-- The string-keyed member names of `Object.prototype` in a standard JS
environment.  Every one of them evaluates to a truthy value (a built-in
function, or `Object.prototype` itself for the accessor), so an index
expression on a plain object literal with one of these keys is truthy. -/
def objectPrototypeMembers : List String :=
  ["constructor", "hasOwnProperty", "isPrototypeOf", "propertyIsEnumerable",
   "toLocaleString", "toString", "valueOf",
   "__defineGetter__", "__defineSetter__", "__lookupGetter__",
   "__lookupSetter__", "__proto__"]

/-- Result of `INTERNATIONAL_STATUTES[statute] || null`:
an own entry, a truthy value inherited from the prototype chain, or `null`. -/
inductive StatuteLookup where
  | found : StatuteInfo → StatuteLookup
  | inherited : String → StatuteLookup
  | nullResult : StatuteLookup
deriving DecidableEq

/-- `getStatuteInfo` from `src/statutes.ts`:
`INTERNATIONAL_STATUTES[statute] || null` under JS property-access
semantics (own keys first, then the `Object.prototype` chain). -/
def getStatuteInfo (statute : String) : StatuteLookup :=
  match INTERNATIONAL_STATUTES.find? (fun p => p.1 == statute) with
  | some p => StatuteLookup.found p.2
  | none =>
    if objectPrototypeMembers.contains statute then StatuteLookup.inherited statute
    else StatuteLookup.nullResult

/-- `getAllStatutes` from `src/statutes.ts`: `Object.values`, definition order. -/
def getAllStatutes : List StatuteInfo := INTERNATIONAL_STATUTES.map Prod.snd

/-- JS truthiness of a string-or-absent value: `undefined` and `""` are falsy. -/
def jsTruthy : Option String → Bool
  | none => false
  | some s => !(s == "")

/-- The denormalized `violation` sub-object of a stored record.  A record
created through the prototype-chain lookup has all three of these fields
`undefined` (`JSON.stringify` then drops them), which the embedding writes
as `violation = none` on the enclosing record. -/
structure StatuteSnapshot where
  description : String
  severity : String
  jurisdiction : List String
deriving DecidableEq

/-- The `metadata` sub-object of `ViolationReport` (`src/types.ts`). -/
structure ViolationMetadata where
  reportedAt : Int
  mcpVersion : String
  detectedBy : String
deriving DecidableEq

/-- `ViolationReport` from `src/types.ts`.  `violation = none` models the
record shape produced when the statute lookup hit the prototype chain and
`statuteInfo.description/severity/jurisdiction` were all `undefined`. -/
structure ViolationReport where
  id : String
  timestamp : Int
  statute : String
  responsibleOrganization : String
  offendingContent : String
  violation : Option StatuteSnapshot
  metadata : ViolationMetadata
deriving DecidableEq

/-- Newest-binding-first association list lookup (`KV.get`). -/
def kvGet {α : Type} (kv : List (String × α)) (k : String) : Option α :=
  (kv.find? (fun p => p.1 == k)).map Prod.snd

/-- `KV.put`: prepend the new binding; `kvGet` sees the newest one. -/
def kvPut {α : Type} (kv : List (String × α)) (k : String) (v : α) :
    List (String × α) :=
  (k, v) :: kv

/-- The persisted state: the `violation:<id>` record entries (keyed by id)
and the `violation_list` index. -/
structure Store where
  records : List (String × ViolationReport)
  index : List String
deriving DecidableEq

/-- The state with no `violation:` keys and no `violation_list` key. -/
def emptyStore : Store := ⟨[], []⟩

/-- One submission attempt: the generated id, the two separately captured
current-time values (`timestamp`, then `metadata.reportedAt`), and the three
request fields of `SimpleViolationRequest` (absent = `none`). -/
structure SubmitInput where
  newId : String
  t1 : Int
  t2 : Int
  statute : Option String
  responsible_organization : Option String
  offending_content : Option String
deriving DecidableEq

/-- The record constructed at lines 54-70 of the worker (`snap = none` when
the statute lookup produced an inherited prototype member, all of whose
statute fields read as `undefined`). -/
def mkReport (x : SubmitInput) (snap : Option StatuteSnapshot) : ViolationReport :=
  { id := x.newId
    timestamp := x.t1
    statute := x.statute.getD ""
    responsibleOrganization := x.responsible_organization.getD ""
    offendingContent := x.offending_content.getD ""
    violation := snap
    metadata :=
      { reportedAt := x.t2
        mcpVersion := "1.0"
        detectedBy := x.responsible_organization.getD "" ++ " Safety System" } }

/-- Outcome of a submission: the 400 missing-fields response, the 400
unknown-statute response, or the success response carrying the new record. -/
inductive SubmitOutcome where
  | validationError : SubmitOutcome
  | unknownStatuteError : String → SubmitOutcome
  | success : ViolationReport → SubmitOutcome
deriving DecidableEq

/-- The shared submission logic of `POST /api/violations/report` and of the
`tools/call report_violation` branch (the worker repeats the same checks,
construction and writes verbatim in both places): validate the three fields,
look up the statute, build the record, `put` it, then rewrite the index with
the new id prepended (`violationIds.unshift`). -/
def submit (store : Store) (x : SubmitInput) : SubmitOutcome × Store :=
  if !(jsTruthy x.statute && jsTruthy x.responsible_organization
        && jsTruthy x.offending_content) then
    (SubmitOutcome.validationError, store)
  else
    match getStatuteInfo (x.statute.getD "") with
    | StatuteLookup.nullResult =>
        (SubmitOutcome.unknownStatuteError (x.statute.getD ""), store)
    | StatuteLookup.found info =>
        let r := mkReport x (some ⟨info.description, info.severity, info.jurisdiction⟩)
        (SubmitOutcome.success r, ⟨kvPut store.records r.id r, r.id :: store.index⟩)
    | StatuteLookup.inherited _ =>
        let r := mkReport x none
        (SubmitOutcome.success r, ⟨kvPut store.records r.id r, r.id :: store.index⟩)

/-- The record-fetch loop shared by `GET /api/violations`, `GET /api/stats`
and the stats/list tool branches: walk the index and silently skip any id
whose `violation:<id>` entry is missing. -/
def fetchAll (store : Store) : List ViolationReport :=
  store.index.filterMap (fun id => kvGet store.records id)

/-- The `{violations, total, hasMore}` body of `GET /api/violations`. -/
structure QueryResult where
  violations : List ViolationReport
  total : Nat
  hasMore : Bool
deriving DecidableEq

/-- The severity predicate `v.violation.severity === severity` (a record
whose `violation` fields are `undefined` matches no severity string). -/
def sevMatches (s : String) (v : ViolationReport) : Bool :=
  (v.violation.map StatuteSnapshot.severity) == some s

/-- The jurisdiction predicate `v.violation.jurisdiction.includes(j)`,
meaningful only on a record whose `violation` fields are present. -/
def jurContains (j : String) (v : ViolationReport) : Bool :=
  ((v.violation.map StatuteSnapshot.jurisdiction).getD []).contains j

/-- The query logic of `GET /api/violations`: fetch every indexed record,
filter by severity if that parameter is truthy, filter by jurisdiction if
that parameter is truthy, slice `[offset, offset+limit)`, and report
`total` (post-filter count) and `hasMore = offset + limit < total`.
Evaluating `.includes` on the `undefined` jurisdiction of a malformed
record throws a `TypeError` (the handler has no try/catch), modelled as
`none`. -/
def queryViolations (store : Store) (severity jurisdiction : Option String)
    (limit offset : Nat) : Option QueryResult :=
  let violations := fetchAll store
  let f1 := if jsTruthy severity
    then violations.filter (sevMatches (severity.getD ""))
    else violations
  if jsTruthy jurisdiction then
    if f1.all (fun v => v.violation.isSome) then
      let f2 := f1.filter (jurContains (jurisdiction.getD ""))
      some ⟨(f2.drop offset).take limit, f2.length,
            decide (offset + limit < f2.length)⟩
    else none
  else
    some ⟨(f1.drop offset).take limit, f1.length,
          decide (offset + limit < f1.length)⟩

/-- `GET /api/violations` including its query-parameter handling:
`parseInt` of the parameter defaulted to `50` and to `0`, modelled for
numeric-or-absent parameters as `Option Nat` with the same defaults. -/
def getViolationsHandler (store : Store) (limitP offsetP : Option Nat)
    (severity jurisdiction : Option String) : Option QueryResult :=
  queryViolations store severity jurisdiction (limitP.getD 50) (offsetP.getD 0)

/-- `GET /api/violations/:id`: one `KV.get` of `violation:<id>` (the route
answers 404 when this is `none`). -/
def getById (store : Store) (id : String) : Option ViolationReport :=
  kvGet store.records id

/-- The stats object of `GET /api/stats` (`ViolationStats` in
`src/types.ts`): note the organization bucket field is named `byAiTool`.
The count maps are total functions from bucket key to count. -/
structure ViolationStats where
  total : Nat
  bySeverity : String → Nat
  byJurisdiction : String → Nat
  byAiTool : String → Nat
  recent24h : Nat

/-- The JSON object keys of the `GET /api/stats` response body, in the
order of the object literal that `c.json` serializes. -/
def statsResponseKeys : List String :=
  ["total", "bySeverity", "byJurisdiction", "byAiTool", "recent24h"]

/-- One step of the JS counting reduce `acc[k] = (acc[k] || 0) + 1`. -/
def bump (acc : String → Nat) (k : String) : String → Nat :=
  fun s => if s == k then acc s + 1 else acc s

/-- The severity bucket key `v.violation.severity` (an `undefined` severity
would coerce to the property key `"undefined"`; unreachable under the
well-formedness guard of `statsOf`). -/
def sevOf (v : ViolationReport) : String :=
  (v.violation.map StatuteSnapshot.severity).getD "undefined"

/-- The jurisdiction entries `v.violation.jurisdiction` of a record
(meaningful only under the well-formedness guard of `statsOf`). -/
def jurOf (v : ViolationReport) : List String :=
  (v.violation.map StatuteSnapshot.jurisdiction).getD []

/-- `GET /api/stats`: fetch every indexed record and aggregate.
`bySeverity` and `byAiTool` are counting reduces keyed by
`v.violation.severity` and `v.responsibleOrganization`; `byJurisdiction`
bumps one bucket per entry of `v.violation.jurisdiction` per record;
`recent24h` counts records with `new Date(v.timestamp) > now - 24h`
(strict).  `forEach` on the `undefined` jurisdiction of a malformed record
throws, modelled as `none`. -/
def statsOf (store : Store) (now : Int) : Option ViolationStats :=
  let violations := fetchAll store
  if violations.all (fun v => v.violation.isSome) then
    some
      { total := violations.length
        bySeverity := violations.foldl (fun acc v => bump acc (sevOf v)) (fun _ => 0)
        byJurisdiction :=
          violations.foldl (fun acc v => (jurOf v).foldl bump acc) (fun _ => 0)
        byAiTool :=
          violations.foldl (fun acc v => bump acc v.responsibleOrganization) (fun _ => 0)
        recent24h :=
          (violations.filter (fun v => decide (now - 86400000 < v.timestamp))).length }
  else none

/-- Spec-side bucket count: the number of occurrences of `s` in `l`. -/
def countOcc (l : List String) (s : String) : Nat :=
  (l.filter (fun x => x == s)).length

/-- The number of index entries whose record exists. -/
def countExisting (store : Store) : Nat :=
  store.index.countP (fun i => (kvGet store.records i).isSome)

/-- Whether every fetched record has its `violation` fields present (true
of every record created through a registry entry; false only for records
created through the prototype-chain lookup slip). -/
def wfStore (store : Store) : Bool :=
  (fetchAll store).all (fun v => v.violation.isSome)

/-- Run a sequence of submission attempts, threading the store and
collecting the records of the successful ones in submission order. -/
def submitMany (store : Store) (inputs : List SubmitInput) :
    Store × List ViolationReport :=
  match inputs with
  | [] => (store, [])
  | x :: xs =>
    match submit store x with
    | (SubmitOutcome.success r, s1) =>
        let rest := submitMany s1 xs
        (rest.1, r :: rest.2)
    | (_, s1) => submitMany s1 xs

/-- A submission input that passes validation and whose statute is an own
registry entry. -/
def validInput (x : SubmitInput) : Bool :=
  jsTruthy x.statute && jsTruthy x.responsible_organization
    && jsTruthy x.offending_content
    && (match getStatuteInfo (x.statute.getD "") with
        | StatuteLookup.found _ => true
        | _ => false)

/-- A JSON-RPC request to `POST /mcp`, flattened: the envelope fields and
the `params` members each branch destructures (`params.protocolVersion` for
`initialize`; `params.name` and `params.arguments.*` for `tools/call`,
where `limit`/`severity` are the `list_violations` arguments).  `id` is
modelled as present-or-absent (`body.id === undefined` is the only check on
it). -/
structure McpRequestEnvelope where
  jsonrpc : Option String
  method : Option String
  id : Option Int
  protocolVersion : Option String
  toolName : Option String
  argStatute : Option String
  argOrg : Option String
  argContent : Option String
  argLimit : Option Nat
  argSeverity : Option String
deriving DecidableEq

/-- The envelope check (jsonrpc must equal `2.0`, method must be truthy,
id must not be `undefined`), negated. -/
def validEnvelope (env : McpRequestEnvelope) : Bool :=
  env.jsonrpc == some "2.0" && jsTruthy env.method && env.id.isSome

/-- The distinct JSON-RPC payloads `POST /mcp` can produce, abstracting the
serialized body down to the branch taken and the data it interpolates. -/
inductive McpPayload where
  | invalidRequest : Option Int → McpPayload
  | initializeResult : Option Int → String → McpPayload
  | toolsListResult : Option Int → McpPayload
  | missingToolName : Option Int → McpPayload
  | validationErr : Option Int → McpPayload
  | unknownStatuteErr : Option Int → String → McpPayload
  | reportSuccess : Option Int → ViolationReport → McpPayload
  | listStatutesResult : Option Int → McpPayload
  | statsResult : Option Int → Nat → McpPayload
  | listViolationsResult : Option Int → List ViolationReport → Nat → McpPayload
  | toolNotFound : Option Int → String → McpPayload
  | methodNotFound : Option Int → String → McpPayload
deriving DecidableEq

/-- How a `POST /mcp` payload is delivered: wrapped in a single
`event: <event>\ndata: <json>\n\n` server-sent-event frame, or as a plain
JSON body. -/
inductive McpHttpResponse where
  | sse : String → McpPayload → McpHttpResponse
  | json : McpPayload → McpHttpResponse
deriving DecidableEq

/-- The payload carried by a response, whatever its framing. -/
def payloadOf : McpHttpResponse → McpPayload
  | McpHttpResponse.sse _ p => p
  | McpHttpResponse.json p => p

/-- Whether a response is SSE-framed. -/
def isSse : McpHttpResponse → Bool
  | McpHttpResponse.sse _ _ => true
  | McpHttpResponse.json _ => false

/-- `sendMcpResponse` from the worker: when the caller accepts an event
stream, wrap the payload in one `event: message` frame, else send it as a
plain JSON body. -/
def sendMcpResponse (response : McpPayload) (wantsStream : Bool) : McpHttpResponse :=
  if wantsStream then McpHttpResponse.sse "message" response
  else McpHttpResponse.json response

/-- The stats computed by the `get_violation_stats` tool branch (its own
reduce, with no jurisdiction map, so it never touches an `undefined`
jurisdiction); the payload keeps the `total` it interpolates into the text
and abstracts the rest of the summary. -/
def mcpStatsTotal (store : Store) : Nat := (fetchAll store).length

/-- The `list_violations` tool branch: fetch all, filter by the optional
exact-match severity argument, take the first `limit` (default 10). -/
def listViolationsTool (store : Store) (limitArg : Option Nat)
    (severityArg : Option String) : List ViolationReport × Nat :=
  let violations := fetchAll store
  let filtered := if jsTruthy severityArg
    then violations.filter (sevMatches (severityArg.getD ""))
    else violations
  (filtered.take (limitArg.getD 10), filtered.length)

/-- The `switch (name)` block of the `tools/call` case: every branch
replies with `c.json` directly, never consulting the Accept header.  The
`report_violation` branch repeats the submission logic of the REST route
verbatim (embedded here through the shared `submit`). -/
def toolsCallBranch (store : Store) (env : McpRequestEnvelope)
    (newId : String) (t1 t2 : Int) : McpHttpResponse × Store :=
  match env.toolName with
  | none => (McpHttpResponse.json (McpPayload.missingToolName env.id), store)
  | some name =>
    match name with
    | "report_violation" =>
      match submit store ⟨newId, t1, t2, env.argStatute, env.argOrg, env.argContent⟩ with
      | (SubmitOutcome.validationError, s1) =>
          (McpHttpResponse.json (McpPayload.validationErr env.id), s1)
      | (SubmitOutcome.unknownStatuteError st, s1) =>
          (McpHttpResponse.json (McpPayload.unknownStatuteErr env.id st), s1)
      | (SubmitOutcome.success r, s1) =>
          (McpHttpResponse.json (McpPayload.reportSuccess env.id r), s1)
    | "list_statutes" =>
        (McpHttpResponse.json (McpPayload.listStatutesResult env.id), store)
    | "get_violation_stats" =>
        (McpHttpResponse.json (McpPayload.statsResult env.id (mcpStatsTotal store)), store)
    | "list_violations" =>
        (McpHttpResponse.json (McpPayload.listViolationsResult env.id
          (listViolationsTool store env.argLimit env.argSeverity).1
          (listViolationsTool store env.argLimit env.argSeverity).2), store)
    | other =>
        (McpHttpResponse.json (McpPayload.toolNotFound env.id other), store)

/-- `POST /mcp`: the envelope check (whose error is SSE-wrapped inline when
the caller accepts an event stream), then the method dispatch.
`initialize` and `tools/list` reply through `sendMcpResponse`; the
`tools/call` case and the unknown-method case reply with `c.json` directly.
Returns the response and the store after the call. -/
def handleMcpPost (store : Store) (wantsStream : Bool)
    (env : McpRequestEnvelope) (newId : String) (t1 t2 : Int) :
    McpHttpResponse × Store :=
  if !(validEnvelope env) then
    (if wantsStream then
        McpHttpResponse.sse "message" (McpPayload.invalidRequest env.id)
      else McpHttpResponse.json (McpPayload.invalidRequest env.id), store)
  else
    match env.method.getD "" with
    | "initialize" =>
        (sendMcpResponse (McpPayload.initializeResult env.id
          (if jsTruthy env.protocolVersion then env.protocolVersion.getD ""
           else "2024-11-05")) wantsStream, store)
    | "tools/list" =>
        (sendMcpResponse (McpPayload.toolsListResult env.id) wantsStream, store)
    | "tools/call" => toolsCallBranch store env newId t1 t2
    | m => (McpHttpResponse.json (McpPayload.methodNotFound env.id m), store)

/-- Spec-side reading of the query filters: a record is kept when it has an
exact severity match for a present severity filter and contains a present
jurisdiction filter in its jurisdiction list. -/
def matchesFilters (sev jur : Option String) (v : ViolationReport) : Bool :=
  (match sev with | none => true | some s => sevMatches s v) &&
  (match jur with | none => true | some j => jurContains j v)

/-- A valid submission of a `Rome Statute Article 7` report. -/
def inputRome : SubmitInput :=
  ⟨"id1", 1000, 1000, some "Rome Statute Article 7", some "TestAI", some "bad content"⟩

/-- A valid submission of a `1954 Hague Convention Article 4` report. -/
def inputHague : SubmitInput :=
  ⟨"id2", 2000, 2000, some "1954 Hague Convention Article 4", some "OtherAI", some "art theft"⟩

/-- A submission whose statute is not a registry article but is a member
name of `Object.prototype`. -/
def inputToString : SubmitInput :=
  ⟨"caseid1", 0, 0, some "toString", some "TestAI", some "x"⟩

/-- A submission whose statute is neither a registry article nor a
prototype member. -/
def inputNonexistent : SubmitInput :=
  ⟨"caseid2", 0, 0, some "Nonexistent Statute", some "TestAI", some "x"⟩

/-- A submission with the `responsible_organization` field absent. -/
def inputMissing : SubmitInput :=
  ⟨"id3", 0, 0, some "Rome Statute Article 7", none, some "x"⟩

/-- The registry entry of `Rome Statute Article 7`. -/
def romeInfo : StatuteInfo :=
  match getStatuteInfo "Rome Statute Article 7" with
  | StatuteLookup.found info => info
  | _ => ⟨"", "", "", "", []⟩

/-- The record a successful `inputRome` submission constructs. -/
def romeReport : ViolationReport :=
  mkReport inputRome (some ⟨romeInfo.description, romeInfo.severity, romeInfo.jurisdiction⟩)

/-- The store after submitting `inputRome` into the empty store. -/
def romeStore : Store := ⟨[("id1", romeReport)], ["id1"]⟩

/-- The store after submitting `inputRome` then `inputHague` into the
empty store. -/
def storeTwo : Store := (submitMany emptyStore [inputRome, inputHague]).1

/-- A store whose index carries one id (`"ghost"`) with no record. -/
def danglingStore : Store :=
  ⟨romeStore.records, "ghost" :: romeStore.index⟩

/-- A well-formed `tools/call list_statutes` request. -/
def envCallListStatutes : McpRequestEnvelope :=
  ⟨some "2.0", some "tools/call", some 1, none, some "list_statutes",
   none, none, none, none, none⟩

/-- A `tools/call report_violation` request with the
`responsible_organization` argument absent. -/
def envCallMissing : McpRequestEnvelope :=
  ⟨some "2.0", some "tools/call", some 3, none, some "report_violation",
   some "Rome Statute Article 7", none, some "x", none, none⟩

/-- A well-formed `initialize` request. -/
def envInit : McpRequestEnvelope :=
  ⟨some "2.0", some "initialize", some 2, none, none,
   none, none, none, none, none⟩

theorem foldl_bump_count (l : List String) :
    ∀ (acc : String → Nat) (s : String), (l.foldl bump acc) s = acc s + countOcc l s := by
  induction l with
  | nil => intro acc s; simp [countOcc]
  | cons x xs ih =>
    intro acc s
    rw [List.foldl_cons, ih]
    by_cases h : s = x
    · subst h
      simp [bump, countOcc, List.filter_cons]
      omega
    · have h1 : (x == s) = false := by
        simp only [beq_eq_false_iff_ne]; exact fun hc => h hc.symm
      have h2 : (s == x) = false := by
        simp only [beq_eq_false_iff_ne]; exact h
      simp [bump, countOcc, List.filter_cons, h1, h2]

theorem countOcc_append (a b : List String) (s : String) :
    countOcc (a ++ b) s = countOcc a s + countOcc b s := by
  simp [countOcc, List.filter_append]

theorem foldl_jur_count (l : List ViolationReport) :
    ∀ (acc : String → Nat) (s : String),
      (l.foldl (fun acc v => (jurOf v).foldl bump acc) acc) s =
        acc s + countOcc (l.map jurOf).flatten s := by
  induction l with
  | nil => intro acc s; simp [countOcc]
  | cons x xs ih =>
    intro acc s
    rw [List.foldl_cons, ih, foldl_bump_count]
    simp [countOcc_append]
    omega

theorem countOcc_map {α : Type} (l : List α) (f : α → String) (s : String) :
    countOcc (l.map f) s = (l.filter (fun v => f v == s)).length := by
  induction l with
  | nil => rfl
  | cons x xs ih =>
    by_cases h : (f x == s) = true
    · simp [countOcc, List.filter_cons, h] at ih ⊢
      omega
    · rw [Bool.not_eq_true] at h
      simp [countOcc, List.filter_cons, h] at ih ⊢
      exact ih

theorem length_filterMap_isSome {α β : Type} (f : α → Option β) (l : List α) :
    (l.filterMap f).length = l.countP (fun a => (f a).isSome) := by
  induction l with
  | nil => rfl
  | cons x xs ih =>
    cases hx : f x <;>
      simp [List.filterMap_cons, hx, List.countP_cons, ih]

theorem filterMap_congr_mem {α β : Type} (l : List α) (f g : α → Option β)
    (h : ∀ a ∈ l, f a = g a) : l.filterMap f = l.filterMap g := by
  induction l with
  | nil => rfl
  | cons x xs ih =>
    rw [List.filterMap_cons, List.filterMap_cons, h x (List.mem_cons_self x xs),
        ih (fun a ha => h a (List.mem_cons_of_mem x ha))]

theorem kvGet_head {α : Type} (kv : List (String × α)) (k : String) (v : α) :
    kvGet ((k, v) :: kv) k = some v := by
  simp [kvGet, List.find?_cons_of_pos]

theorem kvGet_cons_ne {α : Type} (kv : List (String × α)) (k k' : String) (v : α)
    (h : k ≠ k') : kvGet ((k, v) :: kv) k' = kvGet kv k' := by
  unfold kvGet
  rw [List.find?_cons_of_neg]
  simp [h]

theorem submit_success {store : Store} {x : SubmitInput} {r : ViolationReport}
    {s' : Store} (h : submit store x = (SubmitOutcome.success r, s')) :
    r.id = x.newId ∧
      s' = ⟨(x.newId, r) :: store.records, x.newId :: store.index⟩ := by
  unfold submit at h
  split at h
  · simp at h
  · split at h
    · simp at h
    · rw [Prod.mk.injEq] at h
      obtain ⟨h1, h2⟩ := h
      injection h1 with h1
      subst h1
      subst h2
      exact ⟨rfl, rfl⟩
    · rw [Prod.mk.injEq] at h
      obtain ⟨h1, h2⟩ := h
      injection h1 with h1
      subst h1
      subst h2
      exact ⟨rfl, rfl⟩

theorem submitMany_spec (inputs : List SubmitInput) : ∀ (store : Store),
    (∀ x ∈ inputs, validInput x = true) →
    ((inputs.map SubmitInput.newId) ++ store.index).Nodup →
    (submitMany store inputs).2.length = inputs.length ∧
    (submitMany store inputs).1.index =
      (inputs.map SubmitInput.newId).reverse ++ store.index ∧
    fetchAll (submitMany store inputs).1 =
      (submitMany store inputs).2.reverse ++ fetchAll store := by
  induction inputs with
  | nil => intro store _ _; simp [submitMany]
  | cons x xs ih =>
    intro store hval hnd
    have hx := hval x (List.mem_cons_self x xs)
    simp only [validInput, Bool.and_eq_true] at hx
    obtain ⟨⟨⟨h1, h2⟩, h3⟩, h4⟩ := hx
    cases hg : getStatuteInfo (x.statute.getD "") with
    | inherited s => rw [hg] at h4; simp at h4
    | nullResult => rw [hg] at h4; simp at h4
    | found info =>
      have hsub : submit store x =
          (SubmitOutcome.success
            (mkReport x (some ⟨info.description, info.severity, info.jurisdiction⟩)),
           ⟨(x.newId, mkReport x (some ⟨info.description, info.severity, info.jurisdiction⟩))
              :: store.records,
            x.newId :: store.index⟩) := by
        simp [submit, h1, h2, h3, hg, kvPut, mkReport]
      have hnd' : (x.newId :: (xs.map SubmitInput.newId ++ store.index)).Nodup := by
        rw [← List.cons_append]
        exact hnd
      have hxnotin : x.newId ∉ store.index := by
        intro hi
        exact (List.nodup_cons.mp hnd').1 (List.mem_append.mpr (Or.inr hi))
      have hsm : submitMany store (x :: xs) =
          ((submitMany ⟨(x.newId,
              mkReport x (some ⟨info.description, info.severity, info.jurisdiction⟩))
                :: store.records, x.newId :: store.index⟩ xs).1,
           mkReport x (some ⟨info.description, info.severity, info.jurisdiction⟩) ::
            (submitMany ⟨(x.newId,
              mkReport x (some ⟨info.description, info.severity, info.jurisdiction⟩))
                :: store.records, x.newId :: store.index⟩ xs).2) := by
        simp only [submitMany]
        rw [hsub]
      have hfetch : fetchAll ⟨(x.newId,
            mkReport x (some ⟨info.description, info.severity, info.jurisdiction⟩))
              :: store.records, x.newId :: store.index⟩ =
          mkReport x (some ⟨info.description, info.severity, info.jurisdiction⟩) ::
            fetchAll store := by
        unfold fetchAll
        simp only [List.filterMap_cons, kvGet_head]
        congr 1
        apply filterMap_congr_mem
        intro i hi
        exact kvGet_cons_ne _ _ _ _ (fun he => hxnotin (he ▸ hi))
      obtain ⟨ihl, ihi, ihf⟩ := ih
        ⟨(x.newId, mkReport x (some ⟨info.description, info.severity, info.jurisdiction⟩))
            :: store.records, x.newId :: store.index⟩
        (fun y hy => hval y (List.mem_cons_of_mem x hy))
        (List.nodup_middle.mpr hnd')
      refine ⟨?_, ?_, ?_⟩
      · rw [hsm]; simp [ihl]
      · rw [hsm]
        show (submitMany _ xs).1.index = _
        rw [ihi]
        simp [List.reverse_cons, List.append_assoc]
      · rw [hsm]
        show fetchAll (submitMany _ xs).1 = _
        rw [ihf, hfetch]
        simp [List.reverse_cons, List.append_assoc]

/-- Claim C1 (evidence of the code bug): `"toString"` has no entry among
the 15 registry articles, yet `getStatuteInfo "toString"` returns the
truthy `Object.prototype.toString` inherited through the prototype chain,
so the submission is accepted: it returns success, persists a record whose
`violation` fields are all `undefined`, and grows the index — instead of
failing with `UnknownStatuteError` and leaving the store unchanged.  An
ordinary unknown statute (`"Nonexistent Statute"`) does fail as claimed. -/
theorem prototype_statute_accepted :
    getStatuteInfo "toString" = StatuteLookup.inherited "toString" ∧
    submit emptyStore inputToString =
      (SubmitOutcome.success (mkReport inputToString none),
       ⟨[("caseid1", mkReport inputToString none)], ["caseid1"]⟩) ∧
    getStatuteInfo "Nonexistent Statute" = StatuteLookup.nullResult ∧
    submit emptyStore inputNonexistent =
      (SubmitOutcome.unknownStatuteError "Nonexistent Statute", emptyStore) := by
  refine ⟨rfl, rfl, rfl, rfl⟩

/-- Claim C2 counterexample: the `GET /api/stats` response object has no
`byOrganization` key; its organization bucket key is `byAiTool`. -/
theorem stats_has_byAiTool_not_byOrganization :
    statsResponseKeys.contains "byOrganization" = false ∧
    statsResponseKeys.contains "byAiTool" = true := by decide

/-- Claim C2 (amended): for every state whose fetched records are
well-formed, `GET /api/stats` returns an object whose fields are `total`
(the number of fetched records), `bySeverity` (exact-match record counts),
`byJurisdiction` (one increment per jurisdiction entry per record),
`byAiTool` (exact-match counts keyed by `responsibleOrganization` of the
record; the field the claim called `byOrganization`),
and `recent24h` (the records whose timestamp is strictly after
`now - 24h`). -/
theorem stats_aggregates (store : Store) (now : Int) (hwf : wfStore store = true) :
    ∃ st, statsOf store now = some st ∧
      st.total = (fetchAll store).length ∧
      (∀ s, st.bySeverity s = ((fetchAll store).filter (fun v => sevOf v == s)).length) ∧
      (∀ j, st.byJurisdiction j = countOcc ((fetchAll store).map jurOf).flatten j) ∧
      (∀ o, st.byAiTool o =
        ((fetchAll store).filter (fun v => v.responsibleOrganization == o)).length) ∧
      st.recent24h =
        ((fetchAll store).filter (fun v => decide (now - 86400000 < v.timestamp))).length := by
  have hwf' : ((fetchAll store).all (fun v => v.violation.isSome)) = true := hwf
  have hs : statsOf store now = some
      { total := (fetchAll store).length
        bySeverity := (fetchAll store).foldl (fun acc v => bump acc (sevOf v)) (fun _ => 0)
        byJurisdiction :=
          (fetchAll store).foldl (fun acc v => (jurOf v).foldl bump acc) (fun _ => 0)
        byAiTool :=
          (fetchAll store).foldl (fun acc v => bump acc v.responsibleOrganization) (fun _ => 0)
        recent24h :=
          ((fetchAll store).filter (fun v => decide (now - 86400000 < v.timestamp))).length } := by
    simp only [statsOf]
    rw [if_pos hwf']
  refine ⟨_, hs, rfl, ?_, ?_, ?_, rfl⟩
  · intro s
    show ((fetchAll store).foldl (fun acc v => bump acc (sevOf v)) (fun _ => 0)) s = _
    rw [← List.foldl_map, foldl_bump_count, countOcc_map]
    simp
  · intro j
    show ((fetchAll store).foldl (fun acc v => (jurOf v).foldl bump acc) (fun _ => 0)) j = _
    rw [foldl_jur_count]
    simp
  · intro o
    show ((fetchAll store).foldl (fun acc v => bump acc v.responsibleOrganization) (fun _ => 0)) o = _
    rw [← List.foldl_map, foldl_bump_count, countOcc_map]
    simp

/-- Witness for `stats_aggregates` at the concrete two-record store. -/
theorem stats_aggregates_witness :
    ∃ st, statsOf storeTwo 0 = some st ∧
      st.total = (fetchAll storeTwo).length ∧
      (∀ s, st.bySeverity s = ((fetchAll storeTwo).filter (fun v => sevOf v == s)).length) ∧
      (∀ j, st.byJurisdiction j = countOcc ((fetchAll storeTwo).map jurOf).flatten j) ∧
      (∀ o, st.byAiTool o =
        ((fetchAll storeTwo).filter (fun v => v.responsibleOrganization == o)).length) ∧
      st.recent24h =
        ((fetchAll storeTwo).filter (fun v => decide ((0 : Int) - 86400000 < v.timestamp))).length :=
  stats_aggregates storeTwo 0 (by decide)

/-- Claim C6: a submission with any of the three required fields empty or
absent fails validation with the 400 / -32602 missing-fields error on both
transports, and the store (records and index alike) is unchanged. -/
theorem missing_field_validation_error :
    ∀ (store : Store) (x : SubmitInput),
      (jsTruthy x.statute = false ∨ jsTruthy x.responsible_organization = false ∨
        jsTruthy x.offending_content = false) →
      submit store x = (SubmitOutcome.validationError, store) ∧
      ∀ (wantsStream : Bool) (env : McpRequestEnvelope),
        validEnvelope env = true → env.method = some "tools/call" →
        env.toolName = some "report_violation" →
        env.argStatute = x.statute → env.argOrg = x.responsible_organization →
        env.argContent = x.offending_content →
        handleMcpPost store wantsStream env x.newId x.t1 x.t2 =
          (McpHttpResponse.json (McpPayload.validationErr env.id), store) := by
  intro store x hmiss
  have hsub : submit store x = (SubmitOutcome.validationError, store) := by
    rcases hmiss with h | h | h <;> simp [submit, h]
  refine ⟨hsub, ?_⟩
  intro ws env hvalid hmethod htool hst horg hct
  have hx : (⟨x.newId, x.t1, x.t2, env.argStatute, env.argOrg, env.argContent⟩ :
      SubmitInput) = x := by
    rw [hst, horg, hct]
  simp only [handleMcpPost, hvalid, Bool.not_true]
  rw [if_neg (by simp)]
  rw [hmethod]
  show toolsCallBranch store env x.newId x.t1 x.t2 = _
  rw [toolsCallBranch, htool]
  show (match submit store (⟨x.newId, x.t1, x.t2, env.argStatute, env.argOrg,
      env.argContent⟩ : SubmitInput) with
    | (SubmitOutcome.validationError, s1) =>
        (McpHttpResponse.json (McpPayload.validationErr env.id), s1)
    | (SubmitOutcome.unknownStatuteError st, s1) =>
        (McpHttpResponse.json (McpPayload.unknownStatuteErr env.id st), s1)
    | (SubmitOutcome.success r, s1) =>
        (McpHttpResponse.json (McpPayload.reportSuccess env.id r), s1)) = _
  rw [hx, hsub]

/-- Witness for `missing_field_validation_error`: submitting with the
`responsible_organization` field absent, on both transports. -/
theorem missing_field_validation_error_witness :
    submit emptyStore inputMissing = (SubmitOutcome.validationError, emptyStore) ∧
    handleMcpPost emptyStore true envCallMissing "id3" 0 0 =
      (McpHttpResponse.json (McpPayload.validationErr (some 3)), emptyStore) := by
  have h := missing_field_validation_error emptyStore inputMissing (Or.inr (Or.inl rfl))
  exact ⟨h.1, h.2 true envCallMissing rfl rfl rfl rfl rfl rfl⟩

/-- Claim C7: a valid submission (three truthy fields, statute an own
registry entry) returns a record whose `violation` sub-object is exactly
the description, severity and jurisdiction of the registry entry, and whose
`statute`, `responsibleOrganization` and `offendingContent` are the
inputs. -/
theorem valid_submit_snapshots_registry :
    ∀ (store : Store) (x : SubmitInput) (info : StatuteInfo),
      jsTruthy x.statute = true → jsTruthy x.responsible_organization = true →
      jsTruthy x.offending_content = true →
      getStatuteInfo (x.statute.getD "") = StatuteLookup.found info →
      ∃ r, (submit store x).1 = SubmitOutcome.success r ∧
        r.violation = some ⟨info.description, info.severity, info.jurisdiction⟩ ∧
        r.statute = x.statute.getD "" ∧
        r.responsibleOrganization = x.responsible_organization.getD "" ∧
        r.offendingContent = x.offending_content.getD "" := by
  intro store x info h1 h2 h3 hg
  refine ⟨mkReport x (some ⟨info.description, info.severity, info.jurisdiction⟩),
    ?_, rfl, rfl, rfl, rfl⟩
  simp [submit, h1, h2, h3, hg]

/-- Witness for `valid_submit_snapshots_registry`: submitting a
`Rome Statute Article 7` report. -/
theorem valid_submit_snapshots_registry_witness :
    ∃ r, (submit emptyStore inputRome).1 = SubmitOutcome.success r ∧
      r.violation = some ⟨romeInfo.description, romeInfo.severity, romeInfo.jurisdiction⟩ ∧
      r.statute = (inputRome.statute).getD "" ∧
      r.responsibleOrganization = (inputRome.responsible_organization).getD "" ∧
      r.offendingContent = (inputRome.offending_content).getD "" :=
  valid_submit_snapshots_registry emptyStore inputRome romeInfo rfl rfl rfl (by decide)

/-- Claim C8: immediately after a successful submission, fetching the new
id of the new record returns a record equal to the one returned. -/
theorem getById_after_submit :
    ∀ (store : Store) (x : SubmitInput) (r : ViolationReport) (s' : Store),
      submit store x = (SubmitOutcome.success r, s') →
      getById s' r.id = some r := by
  intro store x r s' h
  obtain ⟨hid, hs⟩ := submit_success h
  rw [hs, getById, hid]
  exact kvGet_head _ _ _

/-- Witness for `getById_after_submit` at a concrete submission. -/
theorem getById_after_submit_witness :
    getById romeStore romeReport.id = some romeReport :=
  getById_after_submit emptyStore inputRome romeReport romeStore (by decide)

/-- Claim C9: a dangling index entry (an id with no record) is silently
skipped: the no-filter query and the stats endpoint both succeed and report
`total` equal to the number of index ids whose record exists, which is at
most — and can be strictly less than — the index length. -/
theorem dangling_ids_skipped :
    (∀ (store : Store) (limit offset : Nat),
        ∃ q, queryViolations store none none limit offset = some q ∧
          q.total = countExisting store) ∧
    (∀ (store : Store) (now : Int), wfStore store = true →
        ∃ st, statsOf store now = some st ∧ st.total = countExisting store) ∧
    (∀ store : Store, countExisting store ≤ store.index.length) ∧
    countExisting danglingStore < danglingStore.index.length := by
  have htot : ∀ store : Store, (fetchAll store).length = countExisting store := by
    intro store
    rw [fetchAll, countExisting, length_filterMap_isSome]
  refine ⟨?_, ?_, ?_, by decide⟩
  · intro store limit offset
    have hq : queryViolations store none none limit offset = some
        ⟨((fetchAll store).drop offset).take limit, (fetchAll store).length,
          decide (offset + limit < (fetchAll store).length)⟩ := by
      simp [queryViolations, jsTruthy]
    exact ⟨_, hq, htot store⟩
  · intro store now hwf
    have hwf' : ((fetchAll store).all (fun v => v.violation.isSome)) = true := hwf
    have hs : statsOf store now = some
        { total := (fetchAll store).length
          bySeverity := (fetchAll store).foldl (fun acc v => bump acc (sevOf v)) (fun _ => 0)
          byJurisdiction :=
            (fetchAll store).foldl (fun acc v => (jurOf v).foldl bump acc) (fun _ => 0)
          byAiTool :=
            (fetchAll store).foldl (fun acc v => bump acc v.responsibleOrganization) (fun _ => 0)
          recent24h :=
            ((fetchAll store).filter (fun v => decide (now - 86400000 < v.timestamp))).length } := by
      simp only [statsOf]
      rw [if_pos hwf']
    exact ⟨_, hs, htot store⟩
  · intro store
    rw [← htot store, fetchAll]
    exact List.length_filterMap_le _ _

/-- Witness for `dangling_ids_skipped` at a store with one record and one
dangling index id: stats succeeds and counts only the existing record. -/
theorem dangling_ids_skipped_witness :
    ∃ st, statsOf danglingStore 0 = some st ∧ st.total = countExisting danglingStore :=
  dangling_ids_skipped.2.1 danglingStore 0 (by decide)

/-- Claim C10: `GET /api/violations` with the `limit` (resp. `offset`)
parameter omitted behaves exactly as with `limit=50` (resp. `offset=0`),
and the reported `total` never depends on `limit` or `offset`. -/
theorem limit_offset_defaults :
    ∀ (store : Store) (sev jur : Option String),
      (∀ offsetP, getViolationsHandler store none offsetP sev jur =
        getViolationsHandler store (some 50) offsetP sev jur) ∧
      (∀ limitP, getViolationsHandler store limitP none sev jur =
        getViolationsHandler store limitP (some 0) sev jur) ∧
      (∀ l1 o1 l2 o2,
        (getViolationsHandler store l1 o1 sev jur).map QueryResult.total =
        (getViolationsHandler store l2 o2 sev jur).map QueryResult.total) := by
  intro store sev jur
  refine ⟨fun _ => rfl, fun _ => rfl, ?_⟩
  intro l1 o1 l2 o2
  simp only [getViolationsHandler, queryViolations]
  split
  · split
    · split
      · rfl
      · rfl
    · split
      · rfl
      · rfl
  · rfl

/-- Claim C4: every successful submission prepends the id of the new record to
the index; consequently, submitting any sequence of valid reports (with
distinct generated ids) into the empty store and then querying with no
filters, `limit = N` and `offset = 0` returns all `N` records in
most-recent-first (reverse submission) order with `total = N` and
`hasMore = false`. -/
theorem submit_prepends_query_reverse_chron :
    (∀ (store : Store) (x : SubmitInput) (r : ViolationReport) (s' : Store),
        submit store x = (SubmitOutcome.success r, s') →
        s'.index = r.id :: store.index) ∧
    (∀ inputs : List SubmitInput,
        (∀ x ∈ inputs, validInput x = true) →
        (inputs.map SubmitInput.newId).Nodup →
        queryViolations (submitMany emptyStore inputs).1 none none inputs.length 0 =
          some ⟨(submitMany emptyStore inputs).2.reverse, inputs.length, false⟩) := by
  constructor
  · intro store x r s' h
    obtain ⟨hid, hs⟩ := submit_success h
    rw [hs, hid]
  · intro inputs hval hnd
    obtain ⟨hl, _, hf⟩ := submitMany_spec inputs emptyStore hval (by simpa [emptyStore] using hnd)
    have hf' : fetchAll (submitMany emptyStore inputs).1 =
        (submitMany emptyStore inputs).2.reverse := by
      simpa [emptyStore, fetchAll] using hf
    have hlen : (submitMany emptyStore inputs).2.reverse.length = inputs.length := by
      rw [List.length_reverse, hl]
    simp [queryViolations, jsTruthy, hf', hlen, List.take_of_length_le (le_of_eq hlen)]

/-- Witness for `submit_prepends_query_reverse_chron` at two concrete
valid submissions. -/
theorem submit_prepends_query_reverse_chron_witness :
    queryViolations (submitMany emptyStore [inputRome, inputHague]).1 none none 2 0 =
      some ⟨(submitMany emptyStore [inputRome, inputHague]).2.reverse, 2, false⟩ :=
  submit_prepends_query_reverse_chron.2 [inputRome, inputHague] (by decide) (by decide)

theorem filter_filter_and {α : Type} (p q : α → Bool) (l : List α) :
    (l.filter p).filter q = l.filter (fun a => p a && q a) := by
  induction l with
  | nil => rfl
  | cons x xs ih =>
    cases hp : p x <;> cases hq : q x <;>
      simp [List.filter_cons, hp, hq, ih]

/-- Claim C5: for every well-formed store state, present filters (nonempty
strings) and pagination, the query filters the fetched records by exact
severity match and jurisdiction-list membership, returns the slice
`[offset, offset+limit)` of the filtered sequence as the page, `total`
equal to the filtered count, and `hasMore = (offset + limit < total)`. -/
theorem query_filters_and_paginates (store : Store) (sev jur : Option String)
    (limit offset : Nat) (hwf : wfStore store = true)
    (hsev : ∀ s, sev = some s → s ≠ "") (hjur : ∀ j, jur = some j → j ≠ "") :
    queryViolations store sev jur limit offset =
      some ⟨(((fetchAll store).filter (matchesFilters sev jur)).drop offset).take limit,
            ((fetchAll store).filter (matchesFilters sev jur)).length,
            decide (offset + limit <
              ((fetchAll store).filter (matchesFilters sev jur)).length)⟩ := by
  have hwfm : ∀ v ∈ fetchAll store, v.violation.isSome = true := by
    rw [wfStore, List.all_eq_true] at hwf
    exact hwf
  cases sev with
  | none =>
    cases jur with
    | none =>
      have hfe : (fetchAll store).filter (matchesFilters none none) = fetchAll store := by
        rw [List.filter_eq_self]
        intro a _
        rfl
      simp [queryViolations, jsTruthy, hfe]
    | some j =>
      have hj : (j == "") = false := beq_eq_false_iff_ne.mpr (hjur j rfl)
      have hguard : ((fetchAll store).all fun v => v.violation.isSome) = true := hwf
      have hfe : (fetchAll store).filter (matchesFilters none (some j)) =
          (fetchAll store).filter (jurContains j) := rfl
      simp [queryViolations, jsTruthy, hj, hguard, hfe]
  | some s =>
    have hs : (s == "") = false := beq_eq_false_iff_ne.mpr (hsev s rfl)
    cases jur with
    | none =>
      have hfe : (fetchAll store).filter (matchesFilters (some s) none) =
          (fetchAll store).filter (sevMatches s) := by
        apply List.filter_congr
        intro a _
        show (sevMatches s a && true) = sevMatches s a
        exact Bool.and_true _
      simp [queryViolations, jsTruthy, hs, hfe]
    | some j =>
      have hj : (j == "") = false := beq_eq_false_iff_ne.mpr (hjur j rfl)
      have hguard : (((fetchAll store).filter (sevMatches s)).all
          fun v => v.violation.isSome) = true := by
        rw [List.all_eq_true]
        intro v hv
        exact hwfm v (List.mem_of_mem_filter hv)
      have hfe : (fetchAll store).filter (matchesFilters (some s) (some j)) =
          ((fetchAll store).filter (sevMatches s)).filter (jurContains j) := by
        rw [filter_filter_and]
        rfl
      simp [queryViolations, jsTruthy, hs, hj, hguard, hfe]

/-- Witness for `query_filters_and_paginates`: the two-record store with a
`CRITICAL` severity filter. -/
theorem query_filters_and_paginates_witness :
    queryViolations storeTwo (some "CRITICAL") none 10 0 =
      some ⟨(((fetchAll storeTwo).filter
              (matchesFilters (some "CRITICAL") none)).drop 0).take 10,
            ((fetchAll storeTwo).filter (matchesFilters (some "CRITICAL") none)).length,
            decide (0 + 10 <
              ((fetchAll storeTwo).filter
                (matchesFilters (some "CRITICAL") none)).length)⟩ :=
  query_filters_and_paginates storeTwo (some "CRITICAL") none 10 0 (by decide)
    (fun s hs => by injection hs with h; subst h; decide)
    (fun j hj => by cases hj)

/-- Claim C3 counterexample: a valid `tools/call` request (here
`list_statutes`) whose caller accepts an event-stream is answered with a
plain JSON body, not an SSE frame. -/
theorem toolsCall_not_sse_framed :
    handleMcpPost emptyStore true envCallListStatutes "x" 0 0 =
      (McpHttpResponse.json (McpPayload.listStatutesResult (some 1)), emptyStore) ∧
    isSse (handleMcpPost emptyStore true envCallListStatutes "x" 0 0).1 = false := by
  refine ⟨rfl, rfl⟩

theorem toolsCallBranch_json (store : Store) (env : McpRequestEnvelope)
    (newId : String) (t1 t2 : Int) :
    (toolsCallBranch store env newId t1 t2).1 =
      McpHttpResponse.json (payloadOf (toolsCallBranch store env newId t1 t2).1) := by
  rw [toolsCallBranch]
  split
  · rfl
  · split
    · split <;> rfl
    · rfl
    · rfl
    · rfl
    · rfl

/-- Claim C3 (amended): the streaming choice is honoured only by the
envelope-error reply, `initialize` and `tools/list`, which wrap the same
JSON-RPC payload in a single `event: message` SSE frame when the caller
accepts an event-stream; the payload and the resulting store never depend
on the Accept header; and every `tools/call` result and error is delivered
as a plain JSON body regardless of the Accept header. -/
theorem mcp_sse_framing (store : Store) (env : McpRequestEnvelope)
    (newId : String) (t1 t2 : Int) :
    payloadOf (handleMcpPost store true env newId t1 t2).1 =
      payloadOf (handleMcpPost store false env newId t1 t2).1 ∧
    (handleMcpPost store true env newId t1 t2).2 =
      (handleMcpPost store false env newId t1 t2).2 ∧
    (validEnvelope env = false →
      (handleMcpPost store true env newId t1 t2).1 =
        McpHttpResponse.sse "message" (McpPayload.invalidRequest env.id)) ∧
    (validEnvelope env = true →
      (env.method = some "initialize" ∨ env.method = some "tools/list") →
      (handleMcpPost store true env newId t1 t2).1 =
        McpHttpResponse.sse "message"
          (payloadOf (handleMcpPost store false env newId t1 t2).1)) ∧
    (validEnvelope env = true → env.method = some "tools/call" →
      ∀ ws, (handleMcpPost store ws env newId t1 t2).1 =
        McpHttpResponse.json
          (payloadOf (handleMcpPost store false env newId t1 t2).1)) := by
  by_cases hv : validEnvelope env = true
  · refine ⟨?_, ?_, ?_, ?_, ?_⟩
    · simp [handleMcpPost, hv]
      generalize env.method.getD "" = m
      split <;> rfl
    · simp [handleMcpPost, hv]
      generalize env.method.getD "" = m
      split <;> rfl
    · intro h
      rw [hv] at h
      cases h
    · intro _ hm
      rcases hm with hm | hm <;>
        simp [handleMcpPost, hv, hm, sendMcpResponse, payloadOf]
    · intro _ hm ws
      have h1 : handleMcpPost store ws env newId t1 t2 =
          toolsCallBranch store env newId t1 t2 := by
        simp [handleMcpPost, hv, hm]
      have h2 : handleMcpPost store false env newId t1 t2 =
          toolsCallBranch store env newId t1 t2 := by
        simp [handleMcpPost, hv, hm]
      rw [h1, h2]
      exact toolsCallBranch_json store env newId t1 t2
  · have hv' : validEnvelope env = false := by
      rwa [Bool.not_eq_true] at hv
    refine ⟨?_, ?_, ?_, ?_, ?_⟩
    · simp [handleMcpPost, hv', payloadOf]
    · simp [handleMcpPost, hv']
    · intro _
      simp [handleMcpPost, hv']
    · intro h
      rw [h] at hv'
      cases hv'
    · intro h
      rw [h] at hv'
      cases hv'

/-- Witness for `mcp_sse_framing`: a concrete streamed `initialize` call is
answered as one `event: message` SSE frame carrying the same payload as the
plain-body variant. -/
theorem mcp_sse_framing_witness :
    (handleMcpPost emptyStore true envInit "w" 0 0).1 =
      McpHttpResponse.sse "message"
        (payloadOf (handleMcpPost emptyStore false envInit "w" 0 0).1) :=
  (mcp_sse_framing emptyStore envInit "w" 0 0).2.2.2.1 rfl (Or.inl rfl)
